import Mathlib

/-!
# Verification of `valuations.py` (fairpy `ValuationMatrix`)

Shallow embedding of the `ValuationMatrix` class from `src/valuations.py`.
The backing numpy 2-D array is modelled as a `List (List α)`; numpy's
integer indexing (including the count-from-the-end semantics of negative
indices, and the `IndexError` on out-of-range indices) is modelled with
`Option`-returning lookups.  `np.delete` is documented by numpy to return
a fresh array and never to mutate its argument, so the embedding of the
reduction operations is pure.
-/

namespace Fairpy

/-- `shape1 v` is the length of the first row: numpy's `arr.shape[1]` for a
rectangular 2-D array, and the quantity `len(valuation_matrix[0])` computed
by `ValuationMatrix.__init__` (which is what `num_of_objects` stores). -/
def shape1 {α : Type} (v : List (List α)) : Nat := (v.headD []).length

/-- numpy integer-index resolution on an axis of length `n`: an index `i`
with `0 ≤ i < n` is used as-is; an index with `-n ≤ i < 0` counts from the
end (denotes `i + n`); anything else raises `IndexError` (modelled `none`). -/
def npIndex (n : Nat) (i : Int) : Option Nat :=
  if 0 ≤ i then
    if i < (n : Int) then some i.toNat else none
  else
    if -(n : Int) ≤ i then some (i + (n : Int)).toNat else none

/-- `row[i]` for a 1-D numpy array `row` and a Python int `i`. -/
def npGet {α : Type} (row : List α) (i : Int) : Option α :=
  (npIndex row.length i).bind (fun k => row[k]?)

/-- `v[i]` for a 2-D numpy array `v` and a Python int `i`: the selected row. -/
def npGetRow {α : Type} (v : List (List α)) (i : Int) : Option (List α) :=
  (npIndex v.length i).bind (fun k => v[k]?)

/-- A Python list comprehension `[f o for o in b]` whose body may raise:
the first failing element aborts the whole comprehension. -/
def listCompM {α β : Type} (b : List β) (f : β → Option α) : Option (List α) :=
  match b with
  | [] => some []
  | o :: rest =>
    match f o with
    | none => none
    | some x => (listCompM rest f).map (fun xs => x :: xs)

/-- The `ValuationMatrix` class: the backing array `_v` together with the two
attributes computed and stored by `__init__`. -/
structure ValuationMatrix (α : Type) where
  _v : List (List α)
  num_of_agents : Nat
  num_of_objects : Nat
  deriving DecidableEq

/-- The common tail of `__init__` (lines 65–67 of `valuations.py`), applied to
the already-normalized array: stores the array, sets `num_of_agents` to
`len(valuation_matrix)` and `num_of_objects` to `len(valuation_matrix[0])`.
On a zero-row array, `valuation_matrix[0]` raises `IndexError`, hence `none`. -/
def ValuationMatrix.init {α : Type} (v : List (List α)) : Option (ValuationMatrix α) :=
  match v with
  | [] => none
  | r :: rest => some ⟨r :: rest, (r :: rest).length, r.length⟩

/-- The three accepted constructor inputs of `ValuationMatrix.__init__`
(the dynamic `isinstance` dispatch as a discriminated union). -/
inductive VMInput (α : Type) where
  | ndarray (v : List (List α))
  | listOfLists (v : List (List α))
  | matrix (m : ValuationMatrix α)

/-- `ValuationMatrix.__init__` with its input dispatch: a list of lists is
converted by `np.array` (the identity on the table of values), another
`ValuationMatrix` contributes its backing array `_v`, and a dense array is
used as-is; then the common tail runs. -/
def ValuationMatrix.ofInput {α : Type} : VMInput α → Option (ValuationMatrix α)
  | VMInput.ndarray v => ValuationMatrix.init v
  | VMInput.listOfLists v => ValuationMatrix.init v
  | VMInput.matrix m => ValuationMatrix.init m._v

/-- `agent_value_for_bundle` (lines 81–85): `0` for a `None` bundle, otherwise
`sum([self._v[agent][object] for object in bundle])`. -/
def ValuationMatrix.agent_value_for_bundle {α : Type} [AddCommMonoid α]
    (m : ValuationMatrix α) (agent : Int) (bundle : Option (List Int)) : Option α :=
  match bundle with
  | none => some 0
  | some b =>
    (listCompM b (fun object =>
      (npGetRow m._v agent).bind (fun row => npGet row object))).map List.sum

/-- `without_agent` (lines 87–91): `ValuationMatrix(np.delete(self._v, agent, axis=0))`.
`np.delete` resolves the index against the number of rows and returns a fresh
array with that row removed; the result then goes through `__init__` again. -/
def ValuationMatrix.without_agent {α : Type} (m : ValuationMatrix α) (agent : Int) :
    Option (ValuationMatrix α) :=
  (npIndex m._v.length agent).bind (fun k => ValuationMatrix.init (m._v.eraseIdx k))

/-- `without_object` (lines 93–97): `ValuationMatrix(np.delete(self._v, object, axis=1))`.
`np.delete` resolves the index against `shape[1]` and removes that column. -/
def ValuationMatrix.without_object {α : Type} (m : ValuationMatrix α) (object : Int) :
    Option (ValuationMatrix α) :=
  (npIndex (shape1 m._v) object).bind
    (fun k => ValuationMatrix.init (m._v.map (fun row => row.eraseIdx k)))

/-- `equals` (lines 100–101): `np.array_equal(self._v, other._v)` — same shape
and all corresponding elements exactly equal, which for the 2-D table model is
equality of the lists of rows. -/
def ValuationMatrix.equals {α : Type} [DecidableEq α]
    (m other : ValuationMatrix α) : Bool :=
  m._v == other._v

/-- A well-formed numpy 2-D array is rectangular: every row has the length of
the first one. -/
def Rect {α : Type} (v : List (List α)) : Prop := ∀ r ∈ v, r.length = shape1 v

instance {α : Type} [DecidableEq α] (v : List (List α)) : Decidable (Rect v) := by
  unfold Rect; infer_instance

/-! ## Helper lemmas -/

theorem npIndex_ofNat {n k : Nat} (h : k < n) : npIndex n (Int.ofNat k) = some k := by
  unfold npIndex
  simp only [Int.ofNat_eq_coe]
  split_ifs with h1 h2 h3
  · simp
  · exfalso; omega
  · exfalso; omega
  · exfalso; omega

theorem npIndex_eq_none {n : Nat} {i : Int}
    (h : (n : Int) ≤ i ∨ i < -(n : Int)) : npIndex n i = none := by
  unfold npIndex
  split_ifs with h1 h2 h3
  · exfalso; omega
  · rfl
  · exfalso; omega
  · rfl

theorem listCompM_eq_map {α β : Type} {b : List β} {f : β → Option α} {g : β → α}
    (h : ∀ o ∈ b, f o = some (g o)) : listCompM b f = some (b.map g) := by
  induction b with
  | nil => rfl
  | cons o rest ih =>
    have h1 : f o = some (g o) := h o (List.mem_cons_self o rest)
    have h2 := ih (fun x hx => h x (List.mem_cons_of_mem o hx))
    simp only [listCompM, h1, h2, Option.map_some', List.map_cons]

theorem listCompM_eq_none {α β : Type} {b : List β} {f : β → Option α} {o : β}
    (hmem : o ∈ b) (hf : f o = none) : listCompM b f = none := by
  induction b with
  | nil => cases hmem
  | cons x rest ih =>
    rcases List.mem_cons.mp hmem with h | h
    · subst h; simp only [listCompM, hf]
    · cases hx : f x with
      | none => simp only [listCompM, hx]
      | some y => simp only [listCompM, hx, ih h, Option.map_none']

theorem init_eq_some {α : Type} {v : List (List α)} {m : ValuationMatrix α}
    (h : ValuationMatrix.init v = some m) :
    m._v = v ∧ m.num_of_agents = v.length ∧ m.num_of_objects = shape1 v ∧ v ≠ [] := by
  cases v with
  | nil => exact absurd h (by simp [ValuationMatrix.init])
  | cons r rest =>
    have hm : (⟨r :: rest, (r :: rest).length, r.length⟩ : ValuationMatrix α) = m := by
      have h' := h
      simp only [ValuationMatrix.init, Option.some.injEq] at h'
      exact h'
    subst hm
    exact ⟨rfl, rfl, rfl, by simp⟩

theorem getElem?_eq_some_getD {α : Type} {l : List α} {i : Nat}
    (h : i < l.length) (d : α) : l[i]? = some (l.getD i d) := by
  rw [List.getElem?_eq_getElem h, List.getD_eq_getElem l d h]

theorem getD_mem {α : Type} {l : List α} {i : Nat} (h : i < l.length) (d : α) :
    l.getD i d ∈ l := by
  rw [List.getD_eq_getElem l d h]
  exact List.getElem_mem h

theorem npGetRow_eq {α : Type} {v : List (List α)} {a : Nat} (h : a < v.length) :
    npGetRow v (Int.ofNat a) = some (v.getD a []) := by
  unfold npGetRow
  rw [npIndex_ofNat h]
  exact getElem?_eq_some_getD h []

theorem npGet_ofNat {α : Type} {row : List α} {o : Nat} (h : o < row.length) (d : α) :
    npGet row (Int.ofNat o) = some (row.getD o d) := by
  unfold npGet
  rw [npIndex_ofNat h]
  exact getElem?_eq_some_getD h d

/-! ## Claims -/

/-- C1: for every `ValuationMatrix`, every agent index `a` in
`[0, num_of_agents)`, and every bundle `B` of object indices each in
`[0, num_of_objects)`, `agent_value_for_bundle(a, B)` returns the sum of
`v[a][o]` over every element `o` of `B`, duplicates summed individually. -/
theorem claim_C1 {α : Type} [AddCommMonoid α] {v : List (List α)}
    {m : ValuationMatrix α} (hm : ValuationMatrix.init v = some m) (hrect : Rect v)
    {a : Nat} (ha : a < m.num_of_agents)
    {B : List Nat} (hB : ∀ o ∈ B, o < m.num_of_objects) :
    m.agent_value_for_bundle (Int.ofNat a) (some (B.map Int.ofNat)) =
      some (B.map (fun o => (v.getD a []).getD o 0)).sum := by
  obtain ⟨hv, hna, hno, -⟩ := init_eq_some hm
  have ha' : a < v.length := by omega
  have hrow_len : (v.getD a []).length = shape1 v := hrect _ (getD_mem ha' [])
  have hf : ∀ i ∈ B.map Int.ofNat,
      ((npGetRow m._v (Int.ofNat a)).bind (fun row => npGet row i)) =
        some ((v.getD a []).getD i.toNat 0) := by
    intro i hi
    obtain ⟨o, hoB, rfl⟩ := List.mem_map.mp hi
    rw [hv, npGetRow_eq ha']
    have holt : o < (v.getD a []).length := by
      rw [hrow_len, ← hno]; exact hB o hoB
    show npGet (v.getD a []) (Int.ofNat o) = _
    rw [npGet_ofNat holt 0]
    simp
  simp only [ValuationMatrix.agent_value_for_bundle]
  rw [listCompM_eq_map hf]
  simp [List.map_map, Function.comp_def]

/-- C2: for every valid agent `a`, `agent_value_for_bundle(a, None)` returns
`0`, and so does `agent_value_for_bundle(a, [])` on the empty collection. -/
theorem claim_C2 {α : Type} [AddCommMonoid α] {v : List (List α)}
    {m : ValuationMatrix α} (hm : ValuationMatrix.init v = some m)
    {a : Nat} (ha : a < m.num_of_agents) :
    m.agent_value_for_bundle (Int.ofNat a) none = some 0 ∧
      m.agent_value_for_bundle (Int.ofNat a) (some []) = some 0 := by
  refine ⟨rfl, ?_⟩
  simp [ValuationMatrix.agent_value_for_bundle, listCompM]

/-- C3 (amended): for every `ValuationMatrix` with at least two agents and
every agent index `a` in `[0, num_of_agents)`, `without_agent(a)` returns a
new matrix whose backing array is the original with row `a` deleted, with one
agent fewer and the object count unchanged.  (When `num_of_agents = 1` the
re-construction of the result fails instead — see the counterexample and C9.) -/
theorem claim_C3 {α : Type} {v : List (List α)} {m : ValuationMatrix α}
    (hm : ValuationMatrix.init v = some m) (hrect : Rect v)
    {a : Nat} (ha : a < m.num_of_agents) (htwo : 2 ≤ m.num_of_agents) :
    ∃ m', m.without_agent (Int.ofNat a) = some m' ∧
      m'._v = v.take a ++ v.drop (a + 1) ∧
      m'.num_of_agents = m.num_of_agents - 1 ∧
      m'.num_of_objects = m.num_of_objects := by
  obtain ⟨hv, hna, hno, -⟩ := init_eq_some hm
  have ha' : a < v.length := by omega
  have hlen : (v.eraseIdx a).length = v.length - 1 := by
    rw [List.length_eraseIdx]; simp [ha']
  cases herase : v.eraseIdx a with
  | nil =>
    exfalso
    rw [herase] at hlen
    simp at hlen
    omega
  | cons x xs =>
    refine ⟨⟨x :: xs, (x :: xs).length, x.length⟩, ?_, ?_, ?_, ?_⟩
    · unfold ValuationMatrix.without_agent
      rw [hv, npIndex_ofNat ha']
      show ValuationMatrix.init (v.eraseIdx a) = _
      rw [herase]
      rfl
    · show x :: xs = _
      rw [← herase]
      exact List.eraseIdx_eq_take_drop_succ v a
    · show (x :: xs).length = _
      rw [← herase, hlen, hna]
    · show x.length = _
      have hx : x ∈ v :=
        (List.eraseIdx_sublist v a).mem (herase ▸ List.mem_cons_self x xs)
      rw [hrect x hx, hno]

/-- C3 counterexample: on the one-agent matrix `[[1,4,7]]` the agent index `0`
is valid, yet `without_agent(0)` does not return a `ValuationMatrix` at all —
re-constructing from the zero-row result fails with an index-range error. -/
theorem claim_C3_cex :
    ValuationMatrix.init [[(1 : Int), 4, 7]] =
        some ⟨[[(1 : Int), 4, 7]], 1, 3⟩ ∧
      (ValuationMatrix.mk [[(1 : Int), 4, 7]] 1 3).without_agent 0 = none := by
  decide

/-- C4: for every `ValuationMatrix` and every object index `o` in
`[0, num_of_objects)`, `without_object(o)` returns a new matrix whose backing
array is the original with column `o` deleted, with one object fewer and the
agent count unchanged. -/
theorem claim_C4 {α : Type} {v : List (List α)} {m : ValuationMatrix α}
    (hm : ValuationMatrix.init v = some m)
    {o : Nat} (ho : o < m.num_of_objects) :
    ∃ m', m.without_object (Int.ofNat o) = some m' ∧
      m'._v = v.map (fun r => r.take o ++ r.drop (o + 1)) ∧
      m'.num_of_objects = m.num_of_objects - 1 ∧
      m'.num_of_agents = m.num_of_agents := by
  obtain ⟨hv, hna, hno, hne⟩ := init_eq_some hm
  cases v with
  | nil => exact absurd rfl hne
  | cons r rest =>
    have ho' : o < shape1 (r :: rest) := by omega
    have hor : o < r.length := ho'
    refine ⟨⟨r.eraseIdx o :: rest.map (fun row => row.eraseIdx o),
        (r.eraseIdx o :: rest.map (fun row => row.eraseIdx o)).length,
        (r.eraseIdx o).length⟩, ?_, ?_, ?_, ?_⟩
    · unfold ValuationMatrix.without_object
      rw [hv, npIndex_ofNat ho']
      rfl
    · show (r :: rest).map (fun row => row.eraseIdx o) = _
      simp only [List.eraseIdx_eq_take_drop_succ]
    · show (r.eraseIdx o).length = _
      have hnor : m.num_of_objects = r.length := hno
      rw [List.length_eraseIdx]
      simp only [hor, if_true]
      omega
    · show ((r :: rest).map (fun row => row.eraseIdx o)).length = _
      rw [List.length_map, hna]

/-- C5: the reduction operations do not mutate the source matrix: after any
calls to `without_agent` and `without_object`, the matrix still carries the
exact backing array and counts it was constructed with, and still `equals` a
copy constructed from the same data before the calls.  (numpy's `np.delete`
returns a fresh array and never modifies its argument, so the embedding of
both operations is pure.) -/
theorem claim_C5 {α : Type} [DecidableEq α] {v : List (List α)}
    {m c : ValuationMatrix α}
    (hm : ValuationMatrix.init v = some m) (hc : ValuationMatrix.init v = some c)
    (a o : Int) {r₁ r₂ : Option (ValuationMatrix α)}
    (h₁ : m.without_agent a = r₁) (h₂ : m.without_object o = r₂) :
    m.equals c = true ∧ m._v = v ∧
      m.num_of_agents = v.length ∧ m.num_of_objects = shape1 v := by
  obtain ⟨hv, hna, hno, -⟩ := init_eq_some hm
  obtain ⟨hv', -, -, -⟩ := init_eq_some hc
  refine ⟨?_, hv, hna, hno⟩
  unfold ValuationMatrix.equals
  rw [hv, hv']
  exact beq_self_eq_true v

/-- C6: `equals` returns true iff the two matrices have identical shape and
every corresponding element compares exactly equal (no tolerance); it is
reflexive and symmetric. -/
theorem claim_C6 {α : Type} [DecidableEq α] (m n : ValuationMatrix α) :
    (m.equals n = true ↔
      (m._v.length = n._v.length ∧
        ∀ i : Nat, (m._v.getD i []).length = (n._v.getD i []).length ∧
          ∀ j : Nat, (m._v.getD i [])[j]? = (n._v.getD i [])[j]?)) ∧
      m.equals m = true ∧ m.equals n = n.equals m := by
  refine ⟨?_, ?_, ?_⟩
  · unfold ValuationMatrix.equals
    rw [beq_iff_eq]
    constructor
    · intro h
      rw [h]
      exact ⟨rfl, fun i => ⟨rfl, fun j => rfl⟩⟩
    · rintro ⟨hlen, hrows⟩
      apply List.ext_getElem?
      intro i
      by_cases hi : i < m._v.length
      · rw [getElem?_eq_some_getD hi [], getElem?_eq_some_getD (hlen ▸ hi) []]
        congr 1
        apply List.ext_getElem?
        exact (hrows i).2
      · rw [List.getElem?_eq_none (by omega), List.getElem?_eq_none (by omega)]
  · unfold ValuationMatrix.equals
    exact beq_self_eq_true _
  · unfold ValuationMatrix.equals
    by_cases h : m._v = n._v
    · rw [h]
    · rw [beq_eq_false_iff_ne.mpr h, beq_eq_false_iff_ne.mpr (Ne.symm h)]

/-- C7: constructing from a list of lists, from a dense 2-D array, and from
another `ValuationMatrix` holding the same values all yield matrices that are
pairwise `equals`, with the same `num_of_agents` and `num_of_objects`. -/
theorem claim_C7 {α : Type} [DecidableEq α] {v : List (List α)}
    {m : ValuationMatrix α} (hm : ValuationMatrix.init v = some m) :
    ∃ m₁ m₂ m₃,
      ValuationMatrix.ofInput (VMInput.listOfLists v) = some m₁ ∧
      ValuationMatrix.ofInput (VMInput.ndarray v) = some m₂ ∧
      ValuationMatrix.ofInput (VMInput.matrix m) = some m₃ ∧
      m₁.equals m₂ = true ∧ m₁.equals m₃ = true ∧ m₂.equals m₃ = true ∧
      m₁.num_of_agents = m₂.num_of_agents ∧ m₂.num_of_agents = m₃.num_of_agents ∧
      m₁.num_of_objects = m₂.num_of_objects ∧ m₂.num_of_objects = m₃.num_of_objects := by
  obtain ⟨hv, -, -, -⟩ := init_eq_some hm
  refine ⟨m, m, m, hm, hm, ?_, ?_, ?_, ?_, rfl, rfl, rfl, rfl⟩
  · show ValuationMatrix.init m._v = some m
    rw [hv]
    exact hm
  all_goals
    unfold ValuationMatrix.equals
    exact beq_self_eq_true _

/-- C8 (amended): for a valid agent `a`, a bundle fails with an index-range
error exactly when it contains an index outside `[-num_of_objects,
num_of_objects)`: any such index makes `agent_value_for_bundle` return no
value, while indices in `[-num_of_objects, 0)` do not fail but wrap around,
denoting position `index + num_of_objects` (numpy's negative-index
semantics — see the counterexample). -/
theorem claim_C8 {α : Type} [AddCommMonoid α] {v : List (List α)}
    {m : ValuationMatrix α} (hm : ValuationMatrix.init v = some m) (hrect : Rect v)
    {a : Nat} (ha : a < m.num_of_agents)
    {B : List Int} {o : Int} (hoB : o ∈ B)
    (ho : (m.num_of_objects : Int) ≤ o ∨ o < -(m.num_of_objects : Int)) :
    m.agent_value_for_bundle (Int.ofNat a) (some B) = none := by
  obtain ⟨hv, hna, hno, -⟩ := init_eq_some hm
  have ha' : a < v.length := by omega
  have hrow_len : (v.getD a []).length = shape1 v := hrect _ (getD_mem ha' [])
  have hf : ((npGetRow m._v (Int.ofNat a)).bind (fun row => npGet row o)) = none := by
    rw [hv, npGetRow_eq ha']
    show npGet (v.getD a []) o = none
    unfold npGet
    rw [hrow_len, ← hno, npIndex_eq_none ho]
    rfl
  simp only [ValuationMatrix.agent_value_for_bundle]
  rw [listCompM_eq_none hoB hf]
  rfl

/-- C8 counterexample: on the doctest matrix (3 objects), the bundle `[-1]`
contains an index outside `[0, 3)`, yet `agent_value_for_bundle(0, [-1])`
returns the value `7` (the last object's value, by numpy index wraparound)
instead of failing. -/
theorem claim_C8_cex :
    ValuationMatrix.init [[(1 : Int), 4, 7], [6, 3, 0]] =
        some ⟨[[(1 : Int), 4, 7], [6, 3, 0]], 2, 3⟩ ∧
      ((-1 : Int) < 0) ∧
      (ValuationMatrix.mk [[(1 : Int), 4, 7], [6, 3, 0]] 2 3).agent_value_for_bundle 0
          (some [-1]) = some 7 := by
  decide

/-- C9 (amended): removing the only agent of a one-agent matrix does not
return a zero-agent matrix: `without_agent(0)` fails with an index-range
error, because the result is re-constructed through `__init__`, which derives
`num_of_objects` from the first row of the now row-less array. -/
theorem claim_C9 {α : Type} {v : List (List α)} {m : ValuationMatrix α}
    (hm : ValuationMatrix.init v = some m) (hone : m.num_of_agents = 1) :
    m.without_agent 0 = none := by
  obtain ⟨hv, hna, -, -⟩ := init_eq_some hm
  unfold ValuationMatrix.without_agent
  rw [hv]
  have hlen : v.length = 1 := by omega
  cases v with
  | nil => simp at hlen
  | cons r rest =>
    have hr : rest = [] := by
      simp only [List.length_cons] at hlen
      exact List.eq_nil_of_length_eq_zero (by omega)
    subst hr
    rfl

/-- C9 counterexample: on the one-agent matrix `[[2,5]]`, `without_agent(0)`
does not return a matrix with zero agents and `num_of_objects = 2`; it
returns nothing (the re-construction raises an index-range error). -/
theorem claim_C9_cex :
    ValuationMatrix.init [[(2 : Int), 5]] = some ⟨[[(2 : Int), 5]], 1, 2⟩ ∧
      (ValuationMatrix.mk [[(2 : Int), 5]] 1 2).without_agent 0 = none := by
  decide

/-- C10: removing the only object never fails: on a matrix with exactly one
object, `without_object(0)` returns a matrix with the same `num_of_agents`
and `num_of_objects = 0` (the first row of the result exists and is empty, so
re-construction succeeds, unlike removing the last agent). -/
theorem claim_C10 {α : Type} {v : List (List α)} {m : ValuationMatrix α}
    (hm : ValuationMatrix.init v = some m) (hone : m.num_of_objects = 1) :
    ∃ m', m.without_object 0 = some m' ∧
      m'.num_of_agents = m.num_of_agents ∧ m'.num_of_objects = 0 := by
  obtain ⟨hv, hna, hno, hne⟩ := init_eq_some hm
  cases v with
  | nil => exact absurd rfl hne
  | cons r rest =>
    have hr : r.length = 1 := by
      have hnor : m.num_of_objects = r.length := hno
      omega
    have h0 : npIndex (shape1 (r :: rest)) 0 = some 0 := by
      show npIndex r.length 0 = some 0
      rw [hr]
      decide
    refine ⟨⟨r.eraseIdx 0 :: rest.map (fun row => row.eraseIdx 0),
        (r.eraseIdx 0 :: rest.map (fun row => row.eraseIdx 0)).length,
        (r.eraseIdx 0).length⟩, ?_, ?_, ?_⟩
    · unfold ValuationMatrix.without_object
      rw [hv, h0]
      rfl
    · show (r.eraseIdx 0 :: rest.map (fun row => row.eraseIdx 0)).length = _
      simp only [List.length_cons, List.length_map]
      rw [hna]
      rfl
    · show (r.eraseIdx 0).length = 0
      rw [List.length_eraseIdx]
      simp [hr]

/-! ## Witness instantiations -/

theorem claim_C1_w :
    (ValuationMatrix.mk [[(1 : Int), 4, 7], [6, 3, 0]] 2 3).agent_value_for_bundle
        (Int.ofNat 0) (some ([0, 2, 2].map Int.ofNat)) =
      some (([0, 2, 2].map
        (fun o => (([[(1 : Int), 4, 7], [6, 3, 0]].getD 0 []).getD o 0))).sum) :=
  claim_C1 (v := [[(1 : Int), 4, 7], [6, 3, 0]])
    (m := ValuationMatrix.mk [[(1 : Int), 4, 7], [6, 3, 0]] 2 3)
    (a := 0) (B := [0, 2, 2]) (by decide) (by decide) (by decide) (by decide)

theorem claim_C2_w :
    (ValuationMatrix.mk [[(5 : Int), 6]] 1 2).agent_value_for_bundle
        (Int.ofNat 0) none = some 0 ∧
      (ValuationMatrix.mk [[(5 : Int), 6]] 1 2).agent_value_for_bundle
        (Int.ofNat 0) (some []) = some 0 :=
  claim_C2 (v := [[(5 : Int), 6]]) (m := ValuationMatrix.mk [[(5 : Int), 6]] 1 2)
    (a := 0) (by decide) (by decide)

theorem claim_C3_w :
    ∃ m', (ValuationMatrix.mk [[(1 : Int), 4, 7], [6, 3, 0]] 2 3).without_agent
        (Int.ofNat 1) = some m' ∧
      m'._v = [[(1 : Int), 4, 7], [6, 3, 0]].take 1 ++
        [[(1 : Int), 4, 7], [6, 3, 0]].drop (1 + 1) ∧
      m'.num_of_agents =
        (ValuationMatrix.mk [[(1 : Int), 4, 7], [6, 3, 0]] 2 3).num_of_agents - 1 ∧
      m'.num_of_objects =
        (ValuationMatrix.mk [[(1 : Int), 4, 7], [6, 3, 0]] 2 3).num_of_objects :=
  claim_C3 (v := [[(1 : Int), 4, 7], [6, 3, 0]])
    (m := ValuationMatrix.mk [[(1 : Int), 4, 7], [6, 3, 0]] 2 3)
    (a := 1) (by decide) (by decide) (by decide) (by decide)

theorem claim_C4_w :
    ∃ m', (ValuationMatrix.mk [[(1 : Int), 4, 7], [6, 3, 0]] 2 3).without_object
        (Int.ofNat 1) = some m' ∧
      m'._v = [[(1 : Int), 4, 7], [6, 3, 0]].map
        (fun r => r.take 1 ++ r.drop (1 + 1)) ∧
      m'.num_of_objects =
        (ValuationMatrix.mk [[(1 : Int), 4, 7], [6, 3, 0]] 2 3).num_of_objects - 1 ∧
      m'.num_of_agents =
        (ValuationMatrix.mk [[(1 : Int), 4, 7], [6, 3, 0]] 2 3).num_of_agents :=
  claim_C4 (v := [[(1 : Int), 4, 7], [6, 3, 0]])
    (m := ValuationMatrix.mk [[(1 : Int), 4, 7], [6, 3, 0]] 2 3)
    (o := 1) (by decide) (by decide)

theorem claim_C5_w :
    (ValuationMatrix.mk [[(3 : Int)]] 1 1).equals
        (ValuationMatrix.mk [[(3 : Int)]] 1 1) = true ∧
      (ValuationMatrix.mk [[(3 : Int)]] 1 1)._v = [[(3 : Int)]] ∧
      (ValuationMatrix.mk [[(3 : Int)]] 1 1).num_of_agents = [[(3 : Int)]].length ∧
      (ValuationMatrix.mk [[(3 : Int)]] 1 1).num_of_objects = shape1 [[(3 : Int)]] :=
  claim_C5 (v := [[(3 : Int)]]) (m := ValuationMatrix.mk [[(3 : Int)]] 1 1)
    (c := ValuationMatrix.mk [[(3 : Int)]] 1 1)
    (by decide) (by decide) 0 0 rfl rfl

theorem claim_C7_w :
    ∃ m₁ m₂ m₃,
      ValuationMatrix.ofInput (VMInput.listOfLists [[(2 : Int), 3], [4, 5]]) = some m₁ ∧
      ValuationMatrix.ofInput (VMInput.ndarray [[(2 : Int), 3], [4, 5]]) = some m₂ ∧
      ValuationMatrix.ofInput
        (VMInput.matrix (ValuationMatrix.mk [[(2 : Int), 3], [4, 5]] 2 2)) = some m₃ ∧
      m₁.equals m₂ = true ∧ m₁.equals m₃ = true ∧ m₂.equals m₃ = true ∧
      m₁.num_of_agents = m₂.num_of_agents ∧ m₂.num_of_agents = m₃.num_of_agents ∧
      m₁.num_of_objects = m₂.num_of_objects ∧ m₂.num_of_objects = m₃.num_of_objects :=
  claim_C7 (v := [[(2 : Int), 3], [4, 5]])
    (m := ValuationMatrix.mk [[(2 : Int), 3], [4, 5]] 2 2) (by decide)

theorem claim_C8_w :
    (ValuationMatrix.mk [[(1 : Int), 4, 7], [6, 3, 0]] 2 3).agent_value_for_bundle
        (Int.ofNat 0) (some [0, 5]) = none :=
  claim_C8 (v := [[(1 : Int), 4, 7], [6, 3, 0]])
    (m := ValuationMatrix.mk [[(1 : Int), 4, 7], [6, 3, 0]] 2 3)
    (a := 0) (B := [0, 5]) (o := 5)
    (by decide) (by decide) (by decide) (by decide) (by decide)

theorem claim_C9_w :
    (ValuationMatrix.mk [[(9 : Int)]] 1 1).without_agent 0 = none :=
  claim_C9 (v := [[(9 : Int)]]) (m := ValuationMatrix.mk [[(9 : Int)]] 1 1)
    (by decide) (by decide)

theorem claim_C10_w :
    ∃ m', (ValuationMatrix.mk [[(1 : Int)], [2]] 2 1).without_object 0 = some m' ∧
      m'.num_of_agents = (ValuationMatrix.mk [[(1 : Int)], [2]] 2 1).num_of_agents ∧
      m'.num_of_objects = 0 :=
  claim_C10 (v := [[(1 : Int)], [2]]) (m := ValuationMatrix.mk [[(1 : Int)], [2]] 2 1)
    (by decide) (by decide)

end Fairpy
